import Mathlib

/-!
Verification of the authentication backend (`auth.py`, `db.py`, `app.py`,
`encrypt_password.py`) against its natural-language specification.

The Python sources are shallowly embedded: the database is a list of user
records threaded through every operation, exceptions become `Except`, and
the nondeterministic inputs of the code (bcrypt salts, generated UUID
tokens) are passed as explicit arguments.
-/

/-- Idealized model of a bcrypt hash blob: the salt together with the
one-way digest bcrypt computes from the salt and the password.  bcrypt is
an external library; its contract (the digest determines the password
given the salt, and `checkpw` recomputes the digest from the embedded
salt) is modelled by an injective digest function. -/
structure HashBlob where
  salt : Nat
  digest : String
deriving Repr, DecidableEq

/-- The digest bcrypt derives from a salt and a password.  Injective in the
password for a fixed salt, which is the property `checkpw` relies on. -/
def bcryptDigest (salt : Nat) (password : String) : String :=
  Nat.repr salt ++ "$" ++ password

/-- Model of `bcrypt.hashpw(password.encode(), bcrypt.gensalt())`: the
fresh random salt produced by `gensalt` is taken as an explicit argument. -/
def hashpw (password : String) (salt : Nat) : HashBlob :=
  { salt := salt, digest := bcryptDigest salt password }

/-- Model of `bcrypt.checkpw(password.encode(), blob)`: recompute the
digest with the salt embedded in the blob and compare. -/
def checkpw (password : String) (blob : HashBlob) : Bool :=
  blob.digest == bcryptDigest blob.salt password

/-- Embedding of `hash_password` from `encrypt_password.py`. -/
def hash_password (password : String) (salt : Nat) : HashBlob :=
  hashpw password salt

/-- Embedding of `is_valid` from `encrypt_password.py`. -/
def is_valid (hashed_password : HashBlob) (password : String) : Bool :=
  checkpw password hashed_password

/-- Embedding of `_hash_password` from `auth.py`. -/
def _hash_password (password : String) (salt : Nat) : HashBlob :=
  hashpw password salt

/-- A value stored in (or compared against) a column of the users table:
an integer id, a string, a hash blob, or SQL NULL (Python `None`). -/
inductive Value
  | vid (n : Nat)
  | vstr (s : String)
  | vhash (h : HashBlob)
  | vnone
deriving Repr, DecidableEq

/-- Modelled from the spec: the `User` model (`user.py` is imported by
`db.py` and `auth.py` but absent from the sources).  Per §6 of the spec the
users table has columns `id, email, hashed_password, session_id (nullable),
reset_token (nullable)`. -/
structure User where
  id : Nat
  email : String
  hashed_password : HashBlob
  session_id : Option String
  reset_token : Option String
deriving Repr, DecidableEq

/-- Modelled from the spec: `User.__table__.columns.keys()` for the table
layout of §6. -/
def column_names : List String :=
  ["id", "email", "hashed_password", "session_id", "reset_token"]

/-- Reads a column of a record (`getattr`/ORM attribute access).  Only ever
applied to keys drawn from `column_names`. -/
def getField (u : User) (k : String) : Value :=
  match k with
  | "id" => .vid u.id
  | "email" => .vstr u.email
  | "hashed_password" => .vhash u.hashed_password
  | "session_id" => match u.session_id with
      | some s => .vstr s
      | none => .vnone
  | "reset_token" => match u.reset_token with
      | some s => .vstr s
      | none => .vnone
  | _ => .vnone

/-- Writes a column of a record (`setattr`).  A key/value pair whose value
does not fit the column's type is never produced by the engine; such pairs
leave the record unchanged here. -/
def setField (u : User) (k : String) (v : Value) : User :=
  match k, v with
  | "id", .vid n => { u with id := n }
  | "email", .vstr s => { u with email := s }
  | "hashed_password", .vhash h => { u with hashed_password := h }
  | "session_id", .vstr s => { u with session_id := some s }
  | "session_id", .vnone => { u with session_id := none }
  | "reset_token", .vstr s => { u with reset_token := some s }
  | "reset_token", .vnone => { u with reset_token := none }
  | _, _ => u

/-- A key/value pair the engine could legitimately write: the value fits
the column's type. -/
def wellTyped : String → Value → Bool
  | "id", .vid _ => true
  | "email", .vstr _ => true
  | "hashed_password", .vhash _ => true
  | "session_id", .vstr _ => true
  | "session_id", .vnone => true
  | "reset_token", .vstr _ => true
  | "reset_token", .vnone => true
  | _, _ => false

/-- SQL comparison of a stored column value against a query value, as the
store evaluates `filter_by`.  A text key compared against the integer `id`
column is coerced by the store's type affinity: it matches exactly when it
is the decimal representation of the stored id (a hyphenated UUID string
therefore never matches any id).  All other comparisons are plain equality;
NULL never equals a present value. -/
def sqlEq (stored v : Value) : Bool :=
  match stored, v with
  | .vid n, .vstr s => decide (s = Nat.repr n)
  | a, b => decide (a = b)

/-- A record satisfies every key/value pair of a `filter_by(**kwargs)`
predicate. -/
def rowMatches (u : User) (kwargs : List (String × Value)) : Bool :=
  kwargs.all (fun kv => sqlEq (getField u kv.1) kv.2)

/-- Error kinds raised by the embedded code: `NoResultFound`,
`InvalidRequestError` and `ValueError`. -/
inductive Err
  | noResultFound
  | invalidRequestError
  | valueError
deriving Repr, DecidableEq

/-- Embedding of `DB.find_user_by`: rejects an empty predicate and unknown
column names with `InvalidRequestError`, otherwise returns the first
matching record or raises `NoResultFound`. -/
def find_user_by (db : List User) (kwargs : List (String × Value)) :
    Except Err User :=
  if kwargs = [] then .error .invalidRequestError
  else if kwargs.all (fun kv => column_names.contains kv.1) then
    match db.find? (fun u => rowMatches u kwargs) with
    | some u => .ok u
    | none => .error .noResultFound
  else .error .invalidRequestError

/-- The id the store assigns to the next inserted record (autoincrement:
one more than the largest id in the table). -/
def nextId (db : List User) : Nat :=
  (db.map User.id).foldr max 0 + 1

/-- Embedding of `DB.add_user`: inserts a record with only `email` and
`hashed_password` set and returns it together with the new table state. -/
def add_user (db : List User) (email : String) (hashed_password : HashBlob) :
    User × List User :=
  let u : User :=
    { id := nextId db, email := email, hashed_password := hashed_password,
      session_id := none, reset_token := none }
  (u, db ++ [u])

/-- Applies `f` to the first record satisfying `p`, leaving every other
record in place (the ORM mutates the single found object). -/
def updateFirst (p : User → Bool) (f : User → User) : List User → List User
  | [] => []
  | u :: rest => if p u then f u :: rest else u :: updateFirst p f rest

/-- Performs the `setattr` loop of `DB.update_user` over the kwargs. -/
def setFields (u : User) (kwargs : List (String × Value)) : User :=
  kwargs.foldl (fun acc kv => setField acc kv.1 kv.2) u

/-- Embedding of `DB.update_user`: finds the record by id (propagating
`NoResultFound`), then validates every kwargs key against the column
whitelist (raising `ValueError` on an unknown key) before any field is
written, and finally applies all fields to the found record. -/
def update_user (db : List User) (user_id : Nat)
    (kwargs : List (String × Value)) : Except Err (List User) :=
  match find_user_by db [("id", .vid user_id)] with
  | .error e => .error e
  | .ok _ =>
    if kwargs.all (fun kv => column_names.contains kv.1) then
      .ok (updateFirst (fun v => rowMatches v [("id", .vid user_id)])
            (fun v => setFields v kwargs) db)
    else .error .valueError

/-- Embedding of `Auth.register_user`: raises `ValueError` when a record
with the email is found, otherwise hashes the password and inserts. -/
def register_user (db : List User) (email password : String) (salt : Nat) :
    Except Err (User × List User) :=
  match find_user_by db [("email", .vstr email)] with
  | .ok _ => .error .valueError
  | .error .noResultFound => .ok (add_user db email (_hash_password password salt))
  | .error e => .error e

/-- Embedding of `Auth.valid_login`: swallows `NoResultFound` into `false`,
otherwise checks the password against the stored hash. -/
def valid_login (db : List User) (email password : String) :
    Except Err Bool :=
  match find_user_by db [("email", .vstr email)] with
  | .error .noResultFound => .ok false
  | .error e => .error e
  | .ok u => .ok (checkpw password u.hashed_password)

/-- Embedding of `Auth.create_session`: `none` when the email is unknown,
otherwise stores the freshly generated session id (the generated UUID is
passed as `freshToken`) and returns it. -/
def create_session (db : List User) (email : String) (freshToken : String) :
    Except Err (Option String × List User) :=
  match find_user_by db [("email", .vstr email)] with
  | .error .noResultFound => .ok (none, db)
  | .error e => .error e
  | .ok u =>
    match update_user db u.id [("session_id", .vstr freshToken)] with
    | .error e => .error e
    | .ok db1 => .ok (some freshToken, db1)

/-- Embedding of `Auth.get_user_from_session_id`: `none` for a falsy
(empty) session id, swallows `NoResultFound` into `none`. -/
def get_user_from_session_id (db : List User) (session_id : String) :
    Except Err (Option User) :=
  if session_id = "" then .ok none
  else
    match find_user_by db [("session_id", .vstr session_id)] with
    | .ok u => .ok (some u)
    | .error .noResultFound => .ok none
    | .error e => .error e

/-- Embedding of `Auth.destroy_session`: looks the argument up as the `id`
column (the argument is whatever the caller passed — the logout route
passes the session cookie string, hence the `Value` key), returns silently
when nothing is found, otherwise clears `session_id`. -/
def destroy_session (db : List User) (user_id : Value) :
    Except Err (List User) :=
  match find_user_by db [("id", user_id)] with
  | .error .noResultFound => .ok db
  | .error e => .error e
  | .ok u => update_user db u.id [("session_id", .vnone)]

/-- Embedding of `Auth.get_reset_password_token`: raises `ValueError` when
the email is unknown, otherwise stores the freshly generated reset token
(passed as `freshToken`) and returns it. -/
def get_reset_password_token (db : List User) (email : String)
    (freshToken : String) : Except Err (String × List User) :=
  match find_user_by db [("email", .vstr email)] with
  | .error .noResultFound => .error .valueError
  | .error e => .error e
  | .ok u =>
    match update_user db u.id [("reset_token", .vstr freshToken)] with
    | .error e => .error e
    | .ok db1 => .ok (freshToken, db1)

/-- Embedding of `Auth.update_password`: silently returns on an empty
reset token or password; raises `ValueError` when the token matches no
record; otherwise replaces the hash and clears the token in one update. -/
def update_password (db : List User) (reset_token password : String)
    (salt : Nat) : Except Err (List User) :=
  if reset_token = "" ∨ password = "" then .ok db
  else
    match find_user_by db [("reset_token", .vstr reset_token)] with
    | .error .noResultFound => .error .valueError
    | .error e => .error e
    | .ok u =>
      update_user db u.id
        [("hashed_password", .vhash (_hash_password password salt)),
         ("reset_token", .vnone)]

/-- Outcome of the `DELETE /sessions` route: HTTP 403 or the redirect to
`/` together with the database state after the handler ran. -/
inductive LogOutResult
  | forbidden
  | redirectHome (db : List User)
deriving Repr, DecidableEq

/-- Embedding of the `log_out` route of `app.py`: reads the `session_id`
cookie (absent cookie modelled as `none`), aborts 403 when it is falsy or
resolves to no user, then calls `destroy_session` with the cookie string
and redirects home. -/
def log_out (db : List User) (cookie : Option String) :
    Except Err LogOutResult :=
  match cookie with
  | none => .ok .forbidden
  | some sid =>
    if sid = "" then .ok .forbidden
    else
      match get_user_from_session_id db sid with
      | .error e => .error e
      | .ok none => .ok .forbidden
      | .ok (some _) =>
        match destroy_session db (.vstr sid) with
        | .error e => .error e
        | .ok db1 => .ok (.redirectHome db1)

/-- Projection of the record fields a password reset must not touch. -/
def projU (u : User) : Nat × String × Option String :=
  (u.id, u.email, u.session_id)

/-- Concrete record used to instantiate the verified properties. -/
def sampleUser : User :=
  { id := 1, email := "a@x.com", hashed_password := hashpw "pw1" 0,
    session_id := some "sess-abc", reset_token := some "tok-9" }

/-- Concrete single-record database used to instantiate the verified
properties. -/
def sampleDb : List User := [sampleUser]

/-- Concrete record with no active session and no pending reset. -/
def freshUser : User :=
  { id := 1, email := "a@x.com", hashed_password := hashpw "pw1" 0,
    session_id := none, reset_token := none }

/-! ### Lemmas about the credential hasher -/

theorem checkpw_hashpw (p : String) (s : Nat) : checkpw p (hashpw p s) = true := by
  simp [checkpw, hashpw]

theorem bcryptDigest_inj (s : Nat) {p q : String}
    (h : bcryptDigest s p = bcryptDigest s q) : p = q := by
  unfold bcryptDigest at h
  have h2 := congrArg String.data h
  rw [String.data_append, String.data_append, String.data_append,
    String.data_append] at h2
  exact String.ext (List.append_cancel_left h2)

theorem checkpw_hashpw_ne (s : Nat) {p q : String} (h : p ≠ q) :
    checkpw p (hashpw q s) = false := by
  have hne : bcryptDigest s q ≠ bcryptDigest s p := by
    intro he
    exact h (bcryptDigest_inj s he).symm
  simpa [checkpw, hashpw] using hne

/-! ### Lemmas about columns, matching and the store primitives -/

theorem getField_id (u : User) : getField u "id" = .vid u.id := rfl

theorem getField_email (u : User) : getField u "email" = .vstr u.email := rfl

theorem rowMatches_single (u : User) (k : String) (v : Value) :
    rowMatches u [(k, v)] = sqlEq (getField u k) v := by
  simp [rowMatches]

theorem rowMatches_email (u : User) (e : String) :
    rowMatches u [("email", .vstr e)] = decide (u.email = e) := by
  rw [rowMatches_single, getField_email]
  simp [sqlEq]

theorem rowMatches_id (u : User) (n : Nat) :
    rowMatches u [("id", .vid n)] = decide (u.id = n) := by
  rw [rowMatches_single, getField_id]
  simp [sqlEq]

theorem rowMatches_id_str (u : User) (s : String) :
    rowMatches u [("id", .vstr s)] = decide (s = Nat.repr u.id) := by
  rw [rowMatches_single, getField_id]
  simp [sqlEq]

theorem rowMatches_session (u : User) (t : String) :
    rowMatches u [("session_id", .vstr t)] = decide (u.session_id = some t) := by
  rw [rowMatches_single]
  cases h : u.session_id <;> simp [getField, sqlEq, h]

theorem rowMatches_reset (u : User) (t : String) :
    rowMatches u [("reset_token", .vstr t)] = decide (u.reset_token = some t) := by
  rw [rowMatches_single]
  cases h : u.reset_token <;> simp [getField, sqlEq, h]

theorem find_user_by_single (db : List User) (k : String) (v : Value)
    (hk : column_names.contains k = true) :
    find_user_by db [(k, v)] =
      (match db.find? (fun u => rowMatches u [(k, v)]) with
       | some u => .ok u
       | none => .error .noResultFound) := by
  have hk2 : k ∈ column_names := by simpa using hk
  simp [find_user_by, List.all_cons, hk2]

theorem find?_congr_mem {α : Type} (l : List α) (p q : α → Bool)
    (h : ∀ x ∈ l, p x = q x) : l.find? p = l.find? q := by
  induction l with
  | nil => rfl
  | cons a as ih =>
    have ha := h a (List.mem_cons_self a as)
    by_cases hq : q a = true
    · rw [List.find?_cons_of_pos _ (ha.trans hq), List.find?_cons_of_pos _ hq]
    · have hq2 : ¬ q a = true := hq
      have hp2 : ¬ p a = true := by rw [ha]; exact hq2
      rw [List.find?_cons_of_neg _ hp2, List.find?_cons_of_neg _ hq2]
      exact ih (fun x hx => h x (List.mem_cons_of_mem a hx))

theorem updateFirst_map_proj {β : Type} (proj : User → β) (p : User → Bool)
    (f : User → User) (hf : ∀ u, proj (f u) = proj u) (db : List User) :
    (updateFirst p f db).map proj = db.map proj := by
  induction db with
  | nil => rfl
  | cons a as ih =>
    by_cases hp : p a = true
    · simp [updateFirst, hp, hf]
    · simp [updateFirst, hp, ih]

theorem updateFirst_eq_map (db : List User) (n : Nat) (f : User → User)
    (hnd : (db.map User.id).Nodup) :
    updateFirst (fun v => rowMatches v [("id", .vid n)]) f db
      = db.map (fun u => if u.id = n then f u else u) := by
  induction db with
  | nil => rfl
  | cons a as ih =>
    rw [List.map_cons] at hnd
    have hnd2 := List.nodup_cons.mp hnd
    by_cases hid : a.id = n
    · have hmt : rowMatches a [("id", .vid n)] = true := by
        rw [rowMatches_id]; simp [hid]
      have hmap : as.map (fun u => if u.id = n then f u else u) = as := by
        have h1 : as.map (fun u => if u.id = n then f u else u) = as.map id :=
          List.map_congr_left (fun u hu => by
            have hne : u.id ≠ n := fun he =>
              hnd2.1 (hid ▸ he ▸ List.mem_map_of_mem User.id hu)
            simp [hne])
        simpa using h1
      simp [updateFirst, hmt, hid, hmap]
    · have hmf : rowMatches a [("id", .vid n)] = false := by
        rw [rowMatches_id]; simp [hid]
      simp [updateFirst, hmf, hid, ih hnd2.2]

theorem find?_id_of_nodup (db : List User) (u0 : User) (hmem : u0 ∈ db)
    (hnd : (db.map User.id).Nodup) :
    db.find? (fun u => rowMatches u [("id", .vid u0.id)]) = some u0 := by
  induction db with
  | nil => cases hmem
  | cons a as ih =>
    rw [List.map_cons] at hnd
    have hnd2 := List.nodup_cons.mp hnd
    by_cases heq : a.id = u0.id
    · have ha : a = u0 := by
        rcases List.mem_cons.mp hmem with h | h
        · exact h.symm
        · exact absurd (heq ▸ List.mem_map_of_mem User.id h) hnd2.1
      rw [List.find?_cons_of_pos _ (by rw [rowMatches_id]; simp [heq]), ha]
    · have hmem2 : u0 ∈ as := by
        rcases List.mem_cons.mp hmem with h | h
        · exact absurd (by rw [h]) heq
        · exact h
      rw [List.find?_cons_of_neg _ (by rw [rowMatches_id]; simp [heq])]
      exact ih hmem2 hnd2.2

theorem find_user_by_id_of_nodup (db : List User) (u0 : User) (hmem : u0 ∈ db)
    (hnd : (db.map User.id).Nodup) :
    find_user_by db [("id", .vid u0.id)] = .ok u0 := by
  rw [find_user_by_single _ _ _ (by decide), find?_id_of_nodup db u0 hmem hnd]

theorem update_user_ok_map (db : List User) (kwargs : List (String × Value))
    (u0 : User) (hmem : u0 ∈ db) (hnd : (db.map User.id).Nodup)
    (hcols : kwargs.all (fun kv => column_names.contains kv.1) = true) :
    update_user db u0.id kwargs
      = .ok (db.map (fun u => if u.id = u0.id then setFields u kwargs else u)) := by
  unfold update_user
  rw [find_user_by_id_of_nodup db u0 hmem hnd]
  show (if kwargs.all (fun kv => column_names.contains kv.1) = true then _ else _) = _
  rw [if_pos hcols, updateFirst_eq_map db u0.id _ hnd]

theorem update_user_not_found (db : List User) (uid : Nat)
    (kwargs : List (String × Value)) (h : ∀ u ∈ db, u.id ≠ uid) :
    update_user db uid kwargs = .error .noResultFound := by
  have hfind : db.find? (fun u => rowMatches u [("id", .vid uid)]) = none :=
    List.find?_eq_none.mpr (fun u hu => by rw [rowMatches_id]; simpa using h u hu)
  unfold update_user
  rw [find_user_by_single _ _ _ (by decide), hfind]

theorem update_user_bad_key (db : List User) (uid : Nat)
    (kwargs : List (String × Value)) (u0 : User) (hmem : u0 ∈ db)
    (hid : u0.id = uid)
    (hbad : kwargs.all (fun kv => column_names.contains kv.1) = false) :
    update_user db uid kwargs = .error .valueError := by
  cases hf : db.find? (fun u => rowMatches u [("id", .vid uid)]) with
  | none =>
    exact absurd (by rw [rowMatches_id]; simp [hid])
      (List.find?_eq_none.mp hf u0 hmem)
  | some w =>
    unfold update_user
    rw [find_user_by_single _ _ _ (by decide), hf]
    show (if kwargs.all (fun kv => column_names.contains kv.1) = true then _ else _) = _
    rw [if_neg (by simp only [hbad]; exact Bool.false_ne_true)]

theorem getField_setField_same (u : User) (k : String) (v : Value)
    (hw : wellTyped k v = true) : getField (setField u k v) k = v := by
  unfold wellTyped at hw
  split at hw
  · rfl
  · rfl
  · rfl
  · rfl
  · rfl
  · rfl
  · rfl
  · exact Bool.noConfusion hw

theorem getField_setField_ne (u : User) (k k' : String) (v : Value)
    (hk : k ∈ column_names) (hk' : k' ∈ column_names) (hne : k ≠ k') :
    getField (setField u k v) k' = getField u k' := by
  simp only [column_names, List.mem_cons, List.not_mem_nil, or_false] at hk hk'
  rcases hk with rfl | rfl | rfl | rfl | rfl <;>
    rcases hk' with rfl | rfl | rfl | rfl | rfl <;>
      first
        | exact absurd rfl hne
        | (cases v <;> rfl)

theorem setFields_nil (u : User) : setFields u [] = u := rfl

theorem setFields_cons (u : User) (kv : String × Value)
    (rest : List (String × Value)) :
    setFields u (kv :: rest) = setFields (setField u kv.1 kv.2) rest := rfl

theorem getField_setFields_not_key :
    ∀ (kwargs : List (String × Value)) (u : User) (k' : String),
      k' ∈ column_names → (∀ kv ∈ kwargs, kv.1 ∈ column_names) →
      k' ∉ kwargs.map Prod.fst →
      getField (setFields u kwargs) k' = getField u k' := by
  intro kwargs
  induction kwargs with
  | nil => intro u k' _ _ _; rfl
  | cons kv rest ih =>
    intro u k' hk' hcols hnk
    rw [List.map_cons, List.mem_cons] at hnk
    push_neg at hnk
    rw [setFields_cons,
      ih (setField u kv.1 kv.2) k' hk'
        (fun x hx => hcols x (List.mem_cons_of_mem _ hx)) hnk.2]
    exact getField_setField_ne u kv.1 k' kv.2
      (hcols kv (List.mem_cons_self _ _)) hk' (fun h => hnk.1 h.symm)

theorem getField_setFields_key :
    ∀ (kwargs : List (String × Value)) (u : User) (k : String) (v : Value),
      (k, v) ∈ kwargs → (kwargs.map Prod.fst).Nodup →
      (∀ kv ∈ kwargs, wellTyped kv.1 kv.2 = true) →
      (∀ kv ∈ kwargs, kv.1 ∈ column_names) →
      getField (setFields u kwargs) k = v := by
  intro kwargs
  induction kwargs with
  | nil => intro u k v hmem _ _ _; cases hmem
  | cons kv rest ih =>
    intro u k v hmem hnd hw hcols
    rw [List.map_cons] at hnd
    have hnd2 := List.nodup_cons.mp hnd
    rcases List.mem_cons.mp hmem with h | h
    · subst h
      rw [setFields_cons,
        getField_setFields_not_key rest _ k
          (hcols (k, v) (List.mem_cons_self _ _))
          (fun x hx => hcols x (List.mem_cons_of_mem _ hx)) hnd2.1]
      exact getField_setField_same u k v (hw (k, v) (List.mem_cons_self _ _))
    · rw [setFields_cons]
      exact ih (setField u kv.1 kv.2) k v h hnd2.2
        (fun x hx => hw x (List.mem_cons_of_mem _ hx))
        (fun x hx => hcols x (List.mem_cons_of_mem _ hx))

theorem updateFirst_id (p : User → Bool) (db : List User) :
    updateFirst p (fun v => v) db = db := by
  induction db with
  | nil => rfl
  | cons a as ih =>
    by_cases hp : p a = true <;> simp [updateFirst, hp, ih]

theorem get_user_eq_find? (db : List User) (t : String) (ht : t ≠ "") :
    get_user_from_session_id db t =
      (match db.find? (fun u => rowMatches u [("session_id", .vstr t)]) with
       | some u => .ok (some u)
       | none => .ok none) := by
  unfold get_user_from_session_id
  rw [if_neg ht, find_user_by_single _ _ _ (by decide)]
  cases db.find? (fun u => rowMatches u [("session_id", .vstr t)]) <;> rfl

theorem find?_of_map_proj_eq {β : Type} (l1 l2 : List User) (proj : User → β)
    (hmap : l1.map proj = l2.map proj) (q : β → Bool) :
    Option.map proj (l1.find? (fun u => q (proj u)))
      = Option.map proj (l2.find? (fun u => q (proj u))) := by
  have h1 : (l1.map proj).find? q = Option.map proj (l1.find? (fun u => q (proj u))) :=
    List.find?_map proj l1
  have h2 : (l2.map proj).find? q = Option.map proj (l2.find? (fun u => q (proj u))) :=
    List.find?_map proj l2
  rw [← h1, ← h2, hmap]

theorem update_user_ok_general (db : List User) (uid : Nat)
    (kwargs : List (String × Value)) (w : User)
    (hfind : db.find? (fun u => rowMatches u [("id", .vid uid)]) = some w)
    (hcols : kwargs.all (fun kv => column_names.contains kv.1) = true) :
    update_user db uid kwargs
      = .ok (updateFirst (fun v => rowMatches v [("id", .vid uid)])
          (fun v => setFields v kwargs) db) := by
  unfold update_user
  rw [find_user_by_single _ _ _ (by decide), hfind]
  show (if kwargs.all (fun kv => column_names.contains kv.1) = true then _ else _) = _
  rw [if_pos hcols]

theorem map_session_update_ids (db : List User) (n : Nat) (T : String) :
    (db.map (fun u => if u.id = n then { u with session_id := some T } else u)).map
        User.id
      = db.map User.id := by
  rw [List.map_map]
  exact List.map_congr_left (fun u _ => by by_cases h : u.id = n <;> simp [h])

theorem create_session_ok_map (db : List User) (E T : String) (u0 : User)
    (hfind : db.find? (fun u => rowMatches u [("email", .vstr E)]) = some u0)
    (hnd : (db.map User.id).Nodup) :
    create_session db E T = .ok (some T,
      db.map (fun u => if u.id = u0.id then { u with session_id := some T } else u)) := by
  have hmem : u0 ∈ db := List.mem_of_find?_eq_some hfind
  have step1 : create_session db E T
      = (match update_user db u0.id [("session_id", .vstr T)] with
         | .error e => .error e
         | .ok db1 => .ok (some T, db1)) := by
    unfold create_session
    rw [find_user_by_single _ _ _ (by decide), hfind]
  rw [step1, update_user_ok_map db _ u0 hmem hnd (by rfl)]
  rfl

theorem update_password_no_match (db : List User) (R p : String) (salt : Nat)
    (hR : R ≠ "") (hp : p ≠ "") (h : ∀ u ∈ db, u.reset_token ≠ some R) :
    update_password db R p salt = .error .valueError := by
  unfold update_password
  rw [if_neg (by push_neg; exact ⟨hR, hp⟩),
    find_user_by_single _ _ _ (by decide),
    List.find?_eq_none.mpr (fun u hu => by rw [rowMatches_reset]; simpa using h u hu)]

theorem update_password_ok_shape (db : List User) (R p : String) (salt : Nat)
    (db' : List User) (hR : R ≠ "") (hp : p ≠ "")
    (h : update_password db R p salt = .ok db') :
    ∃ u0, db.find? (fun u => rowMatches u [("reset_token", .vstr R)]) = some u0 ∧
      db' = updateFirst (fun v => rowMatches v [("id", .vid u0.id)])
        (fun v => setFields v
          [("hashed_password", .vhash (_hash_password p salt)),
           ("reset_token", .vnone)]) db := by
  cases hf : db.find? (fun u => rowMatches u [("reset_token", .vstr R)]) with
  | none =>
    rw [update_password_no_match db R p salt hR hp
      (fun u hu hru => by
        have := List.find?_eq_none.mp hf u hu
        rw [rowMatches_reset] at this
        exact this (by simpa using hru))] at h
    exact absurd h (by simp)
  | some u =>
    have step1 : update_password db R p salt
        = update_user db u.id
            [("hashed_password", .vhash (_hash_password p salt)),
             ("reset_token", .vnone)] := by
      unfold update_password
      rw [if_neg (by push_neg; exact ⟨hR, hp⟩),
        find_user_by_single _ _ _ (by decide), hf]
    rw [step1] at h
    cases hf2 : db.find? (fun v => rowMatches v [("id", .vid u.id)]) with
    | none =>
      rw [update_user_not_found db u.id _
        (fun x hx => by
          have := List.find?_eq_none.mp hf2 x hx
          rw [rowMatches_id] at this
          simpa using this)] at h
      exact absurd h (by simp)
    | some w =>
      rw [update_user_ok_general db u.id _ w hf2 (by rfl)] at h
      exact ⟨u, rfl, (Except.ok.inj h).symm⟩

/-! ### Claim theorems -/

/-- C4: verification of a plaintext against a stored hash blob succeeds
exactly when the plaintext equals the hashed password: for every password
P, `verify(P, hash(P))` is true (for both `encrypt_password.is_valid` and
the auth module's bcrypt check), and for distinct passwords
`verify(P1, hash(P2))` is false. -/
theorem c4_verify_iff_equal :
    ∀ (p : String) (s : Nat) (p1 p2 : String) (s2 : Nat),
      is_valid (hash_password p s) p = true ∧
      checkpw p (_hash_password p s) = true ∧
      (p1 ≠ p2 →
        is_valid (hash_password p2 s2) p1 = false ∧
        checkpw p1 (_hash_password p2 s2) = false) := by
  intro p s p1 p2 s2
  exact ⟨checkpw_hashpw p s, checkpw_hashpw p s,
    fun hne => ⟨checkpw_hashpw_ne s2 hne, checkpw_hashpw_ne s2 hne⟩⟩

theorem c4_verify_iff_equal_witness :
    is_valid (hash_password "pw1" 7) "pw1" = true ∧
    ("pw1" : String) ≠ "pw2" ∧
    is_valid (hash_password "pw2" 7) "pw1" = false := by
  refine ⟨(c4_verify_iff_equal "pw1" 7 "pw1" "pw2" 7).1, by decide, ?_⟩
  exact ((c4_verify_iff_equal "pw1" 7 "pw1" "pw2" 7).2.2 (by decide)).1

/-- C8: `update_password` (complete_reset) with an empty reset token or an
empty new password returns silently (no error) and leaves the stored state
unchanged. -/
theorem c8_empty_args_noop :
    ∀ (db : List User) (R P : String) (salt : Nat),
      R = "" ∨ P = "" → update_password db R P salt = .ok db := by
  intro db R P salt h
  unfold update_password
  rw [if_pos h]

theorem c8_empty_args_noop_witness :
    update_password sampleDb "" "newpw" 3 = .ok sampleDb ∧
    update_password sampleDb "tok-9" "" 3 = .ok sampleDb :=
  ⟨c8_empty_args_noop sampleDb "" "newpw" 3 (Or.inl rfl),
   c8_empty_args_noop sampleDb "tok-9" "" 3 (Or.inr rfl)⟩

/-- C3: registering an email that already has a record fails with
`ValueError` (the AlreadyExists kind) — and, the operation producing no
new state, every stored record including its hash is untouched; when the
email is free, registration appends exactly one record whose `session_id`
and `reset_token` are unset, leaving all prior records in place. -/
theorem c3_register_duplicate :
    ∀ (db : List User) (E P : String) (salt : Nat),
      ((∃ u ∈ db, u.email = E) → register_user db E P salt = .error .valueError) ∧
      ((∀ u ∈ db, u.email ≠ E) →
        ∃ u, register_user db E P salt = .ok (u, db ++ [u]) ∧
          u.session_id = none ∧ u.reset_token = none ∧ u.email = E ∧
          u.hashed_password = _hash_password P salt) := by
  intro db E P salt
  constructor
  · rintro ⟨u, hu, he⟩
    cases hf : db.find? (fun v => rowMatches v [("email", .vstr E)]) with
    | none =>
      have hmiss := List.find?_eq_none.mp hf u hu
      rw [rowMatches_email] at hmiss
      exact absurd (by simpa using he) hmiss
    | some w =>
      unfold register_user
      rw [find_user_by_single _ _ _ (by decide), hf]
  · intro h
    have hf : db.find? (fun v => rowMatches v [("email", .vstr E)]) = none :=
      List.find?_eq_none.mpr (fun u hu => by rw [rowMatches_email]; simpa using h u hu)
    refine ⟨{ id := nextId db, email := E, hashed_password := _hash_password P salt,
              session_id := none, reset_token := none }, ?_, rfl, rfl, rfl, rfl⟩
    unfold register_user
    rw [find_user_by_single _ _ _ (by decide), hf]
    rfl

theorem c3_register_duplicate_witness :
    register_user sampleDb "a@x.com" "other" 5 = .error .valueError ∧
    (∃ u, register_user ([] : List User) "b@x.com" "pw" 5 = .ok (u, [] ++ [u]) ∧
      u.session_id = none ∧ u.reset_token = none ∧ u.email = "b@x.com" ∧
      u.hashed_password = _hash_password "pw" 5) :=
  ⟨(c3_register_duplicate sampleDb "a@x.com" "other" 5).1
      ⟨sampleUser, by decide, rfl⟩,
   (c3_register_duplicate [] "b@x.com" "pw" 5).2 (by simp)⟩

/-- C5: `valid_login` never raises: it always returns a boolean, that
boolean is `false` when no record carries the email, and otherwise it is
exactly the hasher's verification of the password against the stored
hash of the first matching record — so unknown-user and wrong-password
both surface as `false`. -/
theorem c5_valid_login_total :
    ∀ (db : List User) (E P : String),
      (∃ b, valid_login db E P = .ok b) ∧
      ((∀ u ∈ db, u.email ≠ E) → valid_login db E P = .ok false) ∧
      (∀ u0, db.find? (fun u => rowMatches u [("email", .vstr E)]) = some u0 →
        valid_login db E P = .ok (checkpw P u0.hashed_password)) := by
  intro db E P
  refine ⟨?_, ?_, ?_⟩
  · cases hf : db.find? (fun u => rowMatches u [("email", .vstr E)]) with
    | none =>
      exact ⟨false, by unfold valid_login; rw [find_user_by_single _ _ _ (by decide), hf]⟩
    | some u =>
      exact ⟨checkpw P u.hashed_password,
        by unfold valid_login; rw [find_user_by_single _ _ _ (by decide), hf]⟩
  · intro h
    have hf : db.find? (fun u => rowMatches u [("email", .vstr E)]) = none :=
      List.find?_eq_none.mpr (fun u hu => by rw [rowMatches_email]; simpa using h u hu)
    unfold valid_login
    rw [find_user_by_single _ _ _ (by decide), hf]
  · intro u0 hf
    unfold valid_login
    rw [find_user_by_single _ _ _ (by decide), hf]

theorem c5_valid_login_total_witness :
    valid_login ([] : List User) "a@x.com" "pw1" = .ok false ∧
    valid_login sampleDb "a@x.com" "pw1" = .ok (checkpw "pw1" sampleUser.hashed_password) :=
  ⟨(c5_valid_login_total [] "a@x.com" "pw1").2.1 (by simp),
   (c5_valid_login_total sampleDb "a@x.com" "pw1").2.2 sampleUser rfl⟩

/-- C9: `destroy_session` looks its argument up as the `id` column, so a
session token (a hyphenated UUID string, never the decimal representation
of any record's id) passed to it matches nothing and the state is returned
unchanged; consequently the logout route, which hands the session cookie to
`destroy_session`, reports success (a redirect) while leaving the database
— and hence the validity of the very session it meant to end — intact. -/
theorem c9_logout_is_noop :
    ∀ (db : List User) (T : String) (u : User),
      (∀ rec ∈ db, T ≠ Nat.repr rec.id) →
      get_user_from_session_id db T = .ok (some u) →
      destroy_session db (.vstr T) = .ok db ∧
      log_out db (some T) = .ok (.redirectHome db) := by
  intro db T u hfresh hget
  have hT : T ≠ "" := by
    intro he
    rw [he] at hget
    unfold get_user_from_session_id at hget
    rw [if_pos rfl] at hget
    exact absurd hget (by simp)
  have hdestroy : destroy_session db (.vstr T) = .ok db := by
    unfold destroy_session
    rw [find_user_by_single _ _ _ (by decide),
      List.find?_eq_none.mpr (fun rec hrec => by
        rw [rowMatches_id_str]; simpa using hfresh rec hrec)]
  refine ⟨hdestroy, ?_⟩
  show (if T = "" then (.ok .forbidden : Except Err LogOutResult)
      else
        match get_user_from_session_id db T with
        | .error e => .error e
        | .ok none => .ok .forbidden
        | .ok (some _) =>
          match destroy_session db (.vstr T) with
          | .error e => .error e
          | .ok db1 => .ok (.redirectHome db1)) = .ok (.redirectHome db)
  rw [if_neg hT, hget, hdestroy]

theorem c9_logout_is_noop_witness :
    destroy_session sampleDb (.vstr "sess-abc") = .ok sampleDb ∧
    log_out sampleDb (some "sess-abc") = .ok (.redirectHome sampleDb) :=
  c9_logout_is_noop sampleDb "sess-abc" sampleUser (by decide) rfl

/-- C10: `update_user` accepts an empty fields mapping — for an existing
id it succeeds and leaves the state unchanged — whereas `find_user_by`
rejects an empty predicate with `InvalidRequestError`; and `update_user`
yields its invalid-field `ValueError` only when some given key is not a
known column. -/
theorem c10_empty_update_accepted :
    ∀ (db : List User) (uid : Nat) (u0 : User), u0 ∈ db → u0.id = uid →
      update_user db uid [] = .ok db ∧
      find_user_by db [] = .error .invalidRequestError ∧
      (∀ kwargs, update_user db uid kwargs = .error .valueError →
        ∃ kv ∈ kwargs, kv.1 ∉ column_names) := by
  intro db uid u0 hmem hid
  subst hid
  refine ⟨?_, rfl, ?_⟩
  · cases hf : db.find? (fun v => rowMatches v [("id", .vid u0.id)]) with
    | none =>
      exact absurd (by rw [rowMatches_id]; simp) (List.find?_eq_none.mp hf u0 hmem)
    | some w =>
      rw [update_user_ok_general db u0.id [] w hf (by rfl),
        show (fun v => setFields v ([] : List (String × Value))) = (fun v => v) from rfl,
        updateFirst_id]
  · intro kwargs h
    by_contra hno
    push_neg at hno
    have hcols : kwargs.all (fun kv => column_names.contains kv.1) = true := by
      rw [List.all_eq_true]
      intro kv hkv
      simpa using hno kv hkv
    cases hf : db.find? (fun v => rowMatches v [("id", .vid u0.id)]) with
    | none =>
      exact absurd (by rw [rowMatches_id]; simp) (List.find?_eq_none.mp hf u0 hmem)
    | some w =>
      rw [update_user_ok_general db u0.id kwargs w hf hcols] at h
      exact absurd h (by simp)

theorem c10_empty_update_accepted_witness :
    update_user sampleDb 1 [] = .ok sampleDb ∧
    find_user_by sampleDb [] = .error .invalidRequestError :=
  ⟨(c10_empty_update_accepted sampleDb 1 sampleUser (by decide) rfl).1,
   (c10_empty_update_accepted sampleDb 1 sampleUser (by decide) rfl).2.1⟩

/-- C7: the store's `update_user` fails with `NoResultFound` when no record
has the id; fails with the invalid-field `ValueError` when the id exists
but some key is not a known column (the key check runs before any field is
written, and a failing call returns no new state, so no field of any record
changes); and on success applies every given field to the single matched
record — every given field is then visible on it, every other column of it
and every other record are unchanged. -/
theorem c7_update_fields_contract :
    ∀ (db : List User) (uid : Nat) (kwargs : List (String × Value)),
      ((∀ u ∈ db, u.id ≠ uid) → update_user db uid kwargs = .error .noResultFound) ∧
      ((∃ u ∈ db, u.id = uid) → (∃ kv ∈ kwargs, kv.1 ∉ column_names) →
        update_user db uid kwargs = .error .valueError) ∧
      ((db.map User.id).Nodup → (∀ kv ∈ kwargs, kv.1 ∈ column_names) →
        (kwargs.map Prod.fst).Nodup →
        (∀ kv ∈ kwargs, wellTyped kv.1 kv.2 = true) →
        ∀ u0 ∈ db, u0.id = uid →
          update_user db uid kwargs
            = .ok (db.map (fun u => if u.id = uid then setFields u kwargs else u)) ∧
          (∀ kv ∈ kwargs, getField (setFields u0 kwargs) kv.1 = kv.2) ∧
          (∀ k ∈ column_names, k ∉ kwargs.map Prod.fst →
            getField (setFields u0 kwargs) k = getField u0 k)) := by
  intro db uid kwargs
  refine ⟨update_user_not_found db uid kwargs, ?_, ?_⟩
  · rintro ⟨u, hu, hid⟩ ⟨kv, hkv, hbadkv⟩
    have hbad : kwargs.all (fun f => column_names.contains f.1) = false := by
      cases hall : kwargs.all (fun f => column_names.contains f.1) with
      | false => rfl
      | true =>
        rw [List.all_eq_true] at hall
        exact absurd (by simpa using hall kv hkv) hbadkv
    exact update_user_bad_key db uid kwargs u hu hid hbad
  · intro hnd hcols hknd hw u0 hmem hid
    subst hid
    have hcols2 : kwargs.all (fun kv => column_names.contains kv.1) = true := by
      rw [List.all_eq_true]
      intro kv hkv
      simpa using hcols kv hkv
    refine ⟨update_user_ok_map db kwargs u0 hmem hnd hcols2, ?_, ?_⟩
    · intro kv hkv
      exact getField_setFields_key kwargs u0 kv.1 kv.2 hkv hknd hw hcols
    · intro k hk hnk
      exact getField_setFields_not_key kwargs u0 k hk hcols hnk

theorem c7_update_fields_contract_witness :
    update_user ([] : List User) 1 [] = .error .noResultFound ∧
    update_user sampleDb 1 [("color", .vstr "red")] = .error .valueError ∧
    update_user sampleDb 1 [("email", .vstr "b@x.com")]
      = .ok (sampleDb.map (fun u => if u.id = 1
          then setFields u [("email", .vstr "b@x.com")] else u)) ∧
    getField (setFields sampleUser [("email", .vstr "b@x.com")]) "email"
      = .vstr "b@x.com" := by
  refine ⟨(c7_update_fields_contract [] 1 []).1 (by simp), ?_, ?_, ?_⟩
  · exact (c7_update_fields_contract sampleDb 1 [("color", .vstr "red")]).2.1
      ⟨sampleUser, by decide, rfl⟩ ⟨("color", .vstr "red"), by decide, by decide⟩
  · exact ((c7_update_fields_contract sampleDb 1 [("email", .vstr "b@x.com")]).2.2
      (by decide) (by decide) (by decide) (by decide) sampleUser (by decide) rfl).1
  · exact ((c7_update_fields_contract sampleDb 1 [("email", .vstr "b@x.com")]).2.2
      (by decide) (by decide) (by decide) (by decide) sampleUser (by decide) rfl).2.1
      ("email", .vstr "b@x.com") (by decide)

/-- C6: a successful `update_password` (complete_reset) touches only
`hashed_password` and `reset_token`: the length of the table and every
record's `id`, `email` and `session_id` are unchanged position by
position, and any session token that resolved to a user before the reset
still resolves to a record with the same `id`, `email` and `session_id`
afterwards. -/
theorem c6_reset_preserves_sessions :
    ∀ (db : List User) (R p : String) (salt : Nat) (db' : List User),
      update_password db R p salt = .ok db' →
      db'.length = db.length ∧
      (∀ (i : Nat) (hi : i < db.length) (hi2 : i < db'.length),
        (db'.get ⟨i, hi2⟩).id = (db.get ⟨i, hi⟩).id ∧
        (db'.get ⟨i, hi2⟩).email = (db.get ⟨i, hi⟩).email ∧
        (db'.get ⟨i, hi2⟩).session_id = (db.get ⟨i, hi⟩).session_id) ∧
      (∀ (t : String) (u : User), get_user_from_session_id db t = .ok (some u) →
        ∃ u2, get_user_from_session_id db' t = .ok (some u2) ∧
          u2.id = u.id ∧ u2.email = u.email ∧ u2.session_id = u.session_id) := by
  intro db R p salt db' h
  have hmap : db'.map projU = db.map projU := by
    by_cases he : R = "" ∨ p = ""
    · unfold update_password at h
      rw [if_pos he] at h
      rw [← Except.ok.inj h]
    · push_neg at he
      obtain ⟨u0, hf, hshape⟩ := update_password_ok_shape db R p salt db' he.1 he.2 h
      rw [hshape]
      exact updateFirst_map_proj projU
        (fun v => rowMatches v [("id", .vid u0.id)])
        (fun v => setFields v
          [("hashed_password", .vhash (_hash_password p salt)),
           ("reset_token", .vnone)])
        (fun u => rfl) db
  have hlen : db'.length = db.length := by
    have h2 := congrArg List.length hmap
    simpa using h2
  refine ⟨hlen, ?_, ?_⟩
  · intro i hi hi2
    have hq : (db'.map projU).get? i = (db.map projU).get? i := by rw [hmap]
    rw [List.get?_eq_get (by simpa using hi2), List.get?_eq_get (by simpa using hi)] at hq
    have h3 := Option.some.inj hq
    have h4 : projU (db'.get ⟨i, hi2⟩) = projU (db.get ⟨i, hi⟩) := by simpa using h3
    simp only [projU, Prod.mk.injEq] at h4
    exact ⟨h4.1, h4.2.1, h4.2.2⟩
  · intro t u hget
    have ht : t ≠ "" := by
      intro he
      rw [he] at hget
      unfold get_user_from_session_id at hget
      rw [if_pos rfl] at hget
      exact absurd hget (by simp)
    rw [get_user_eq_find? db t ht] at hget
    have hfun : (fun u2 => rowMatches u2 [("session_id", .vstr t)])
        = (fun u2 => (fun pr : Nat × String × Option String =>
            decide (pr.2.2 = some t)) (projU u2)) :=
      funext (fun u2 => by rw [rowMatches_session]; rfl)
    cases hf : db.find? (fun u2 => rowMatches u2 [("session_id", .vstr t)]) with
    | none => rw [hf] at hget; exact absurd hget (by simp)
    | some w =>
      rw [hf] at hget
      have hwu : w = u := by
        have h5 := Except.ok.inj hget
        exact Option.some.inj h5
      subst hwu
      have hfind2 := find?_of_map_proj_eq db' db projU hmap
        (fun pr => decide (pr.2.2 = some t))
      rw [← hfun, hf] at hfind2
      cases hf2 : db'.find? (fun u2 => rowMatches u2 [("session_id", .vstr t)]) with
      | none => rw [hf2] at hfind2; exact absurd hfind2 (by simp)
      | some w2 =>
        rw [hf2] at hfind2
        have hproj : projU w2 = projU w := by simpa using hfind2
        simp only [projU, Prod.mk.injEq] at hproj
        refine ⟨w2, ?_, hproj.1, hproj.2.1, hproj.2.2⟩
        rw [get_user_eq_find? db' t ht, hf2]

theorem c6_reset_preserves_sessions_witness :
    ([{ id := 1, email := "a@x.com", hashed_password := hashpw "pw2" 4,
        session_id := some "sess-abc", reset_token := none }] : List User).length
      = sampleDb.length ∧
    (∃ u2, get_user_from_session_id
        [{ id := 1, email := "a@x.com", hashed_password := hashpw "pw2" 4,
           session_id := some "sess-abc", reset_token := none }] "sess-abc"
        = .ok (some u2) ∧
      u2.id = sampleUser.id ∧ u2.email = sampleUser.email ∧
      u2.session_id = sampleUser.session_id) := by
  have W := c6_reset_preserves_sessions sampleDb "tok-9" "pw2" 4
    [{ id := 1, email := "a@x.com", hashed_password := hashpw "pw2" 4,
       session_id := some "sess-abc", reset_token := none }] rfl
  exact ⟨W.1, W.2.2 "sess-abc" sampleUser rfl⟩

/-- C1: with non-empty arguments, `update_password` (complete_reset) on a
reset token held by no record fails with `ValueError` — and, producing no
new state, leaves every stored record unchanged; consequently after a
successful `complete_reset(R, p)` (which clears the matched record's
`reset_token`, the token R being held by no other record) a second
`complete_reset(R, p2)` fails with `ValueError`. -/
theorem c1_reset_token_single_use :
    ∀ (db : List User) (R p p2 : String) (s s2 : Nat),
      R ≠ "" → p ≠ "" → p2 ≠ "" →
      ((∀ u ∈ db, u.reset_token ≠ some R) →
        update_password db R p s = .error .valueError) ∧
      ((db.map User.id).Nodup →
        (∀ u ∈ db, ∀ v ∈ db,
          u.reset_token = some R → v.reset_token = some R → u = v) →
        ∀ db2, update_password db R p s = .ok db2 →
          (∀ u ∈ db2, u.reset_token ≠ some R) ∧
          update_password db2 R p2 s2 = .error .valueError) := by
  intro db R p p2 s s2 hR hp hp2
  refine ⟨update_password_no_match db R p s hR hp, ?_⟩
  intro hnd huniq db2 hok
  obtain ⟨u0, hf, hshape⟩ := update_password_ok_shape db R p s db2 hR hp hok
  have hmem0 : u0 ∈ db := List.mem_of_find?_eq_some hf
  have hu0R : u0.reset_token = some R := by
    have h1 := List.find?_some hf
    rw [rowMatches_reset] at h1
    simpa using h1
  have hclear : ∀ u ∈ db2, u.reset_token ≠ some R := by
    rw [hshape, updateFirst_eq_map db u0.id _ hnd]
    intro u hu
    rw [List.mem_map] at hu
    obtain ⟨x, hx, hxu⟩ := hu
    subst hxu
    by_cases hxid : x.id = u0.id
    · rw [if_pos hxid]
      have hr : (setFields x
          [("hashed_password", .vhash (_hash_password p s)),
           ("reset_token", .vnone)]).reset_token = none := rfl
      rw [hr]
      simp
    · rw [if_neg hxid]
      intro hxR
      exact hxid (congrArg User.id (huniq x hx u0 hmem0 hxR hu0R))
  exact ⟨hclear, update_password_no_match db2 R p2 s2 hR hp2 hclear⟩

theorem c1_reset_token_single_use_witness :
    update_password ([] : List User) "tok-1" "pw2" 0 = .error .valueError ∧
    (∀ u ∈ ([{ id := 1, email := "a@x.com", hashed_password := hashpw "pw2" 4,
               session_id := some "sess-abc", reset_token := none }] : List User),
        u.reset_token ≠ some "tok-9") ∧
    update_password
      [{ id := 1, email := "a@x.com", hashed_password := hashpw "pw2" 4,
         session_id := some "sess-abc", reset_token := none }] "tok-9" "pw3" 6
      = .error .valueError := by
  refine ⟨(c1_reset_token_single_use [] "tok-1" "pw2" "x" 0 0
      (by decide) (by decide) (by decide)).1 (by simp), ?_⟩
  have W := (c1_reset_token_single_use sampleDb "tok-9" "pw2" "pw3" 4 6
      (by decide) (by decide) (by decide)).2 (by decide) (by decide)
    [{ id := 1, email := "a@x.com", hashed_password := hashpw "pw2" 4,
       session_id := some "sess-abc", reset_token := none }] rfl
  exact W

/-- C2: for a registered user, issuing a second session overwrites the
first token in the stored `session_id`: after `create_session(E, T1)`
followed by `create_session(E, T2)` (with fresh distinct tokens),
`get_user_from_session_id T1` resolves to no one while
`get_user_from_session_id T2` returns that user's record, now carrying
session `T2`. -/
theorem c2_new_session_invalidates_old :
    ∀ (db : List User) (E T1 T2 : String) (u0 : User),
      db.find? (fun u => rowMatches u [("email", .vstr E)]) = some u0 →
      (db.map User.id).Nodup →
      T1 ≠ T2 → T1 ≠ "" → T2 ≠ "" →
      (∀ u ∈ db, u.session_id ≠ some T1) →
      (∀ u ∈ db, u.session_id ≠ some T2) →
      ∃ db1 db2,
        create_session db E T1 = .ok (some T1, db1) ∧
        create_session db1 E T2 = .ok (some T2, db2) ∧
        get_user_from_session_id db2 T1 = .ok none ∧
        get_user_from_session_id db2 T2
          = .ok (some { u0 with session_id := some T2 }) := by
  intro db E T1 T2 u0 hfind hnd hT12 hT1 hT2 hfresh1 hfresh2
  have hmem0 : u0 ∈ db := List.mem_of_find?_eq_some hfind
  set g1 := fun u : User => if u.id = u0.id then { u with session_id := some T1 } else u
    with hg1
  set g2 := fun u : User => if u.id = u0.id then { u with session_id := some T2 } else u
    with hg2
  have h1 : create_session db E T1 = .ok (some T1, db.map g1) :=
    create_session_ok_map db E T1 u0 hfind hnd
  have hnd1 : ((db.map g1).map User.id).Nodup := by
    rw [hg1, map_session_update_ids]
    exact hnd
  have hfind1 : (db.map g1).find? (fun u => rowMatches u [("email", .vstr E)])
      = some (g1 u0) := by
    rw [List.find?_map g1 db]
    have hcong : db.find? (fun u => rowMatches (g1 u) [("email", .vstr E)])
        = db.find? (fun u => rowMatches u [("email", .vstr E)]) :=
      find?_congr_mem db _ _ (fun x _ => by
        rw [rowMatches_email, rowMatches_email]
        by_cases hxid : x.id = u0.id <;> simp [hg1, hxid])
    rw [show ((fun u => rowMatches u [("email", .vstr E)]) ∘ g1)
        = (fun u => rowMatches (g1 u) [("email", .vstr E)]) from rfl, hcong, hfind]
    rfl
  have h2 : create_session (db.map g1) E T2
      = .ok (some T2, (db.map g1).map
          (fun u => if u.id = (g1 u0).id then { u with session_id := some T2 } else u)) :=
    create_session_ok_map (db.map g1) E T2 (g1 u0) hfind1 hnd1
  have hid0 : (g1 u0).id = u0.id := by simp [hg1]
  rw [hid0, ← hg2] at h2
  have hcomp : (db.map g1).map g2 = db.map g2 := by
    rw [List.map_map]
    exact List.map_congr_left (fun x _ => by
      show g2 (g1 x) = g2 x
      by_cases hxid : x.id = u0.id <;> simp [hg1, hg2, hxid])
  rw [hcomp] at h2
  refine ⟨db.map g1, db.map g2, h1, h2, ?_, ?_⟩
  · rw [get_user_eq_find? _ T1 hT1]
    have hnone : (db.map g2).find? (fun u => rowMatches u [("session_id", .vstr T1)])
        = none := by
      rw [List.find?_map g2 db,
        show ((fun u => rowMatches u [("session_id", .vstr T1)]) ∘ g2)
          = (fun u => rowMatches (g2 u) [("session_id", .vstr T1)]) from rfl,
        List.find?_eq_none.mpr ?_]
      · rfl
      · intro x hx
        rw [rowMatches_session]
        by_cases hxid : x.id = u0.id
        · simp only [hg2, if_pos hxid]
          simp
          exact fun he => hT12 he.symm
        · simp only [hg2, if_neg hxid]
          simpa using hfresh1 x hx
    rw [hnone]
  · rw [get_user_eq_find? _ T2 hT2]
    have hsome : (db.map g2).find? (fun u => rowMatches u [("session_id", .vstr T2)])
        = some (g2 u0) := by
      rw [List.find?_map g2 db,
        show ((fun u => rowMatches u [("session_id", .vstr T2)]) ∘ g2)
          = (fun u => rowMatches (g2 u) [("session_id", .vstr T2)]) from rfl]
      have hcong2 : db.find? (fun u => rowMatches (g2 u) [("session_id", .vstr T2)])
          = db.find? (fun u => rowMatches u [("id", .vid u0.id)]) :=
        find?_congr_mem db _ _ (fun x hx => by
          rw [rowMatches_session, rowMatches_id]
          by_cases hxid : x.id = u0.id
          · simp [hg2, hxid]
          · simp only [hg2, if_neg hxid]
            simp [hxid]
            simpa using hfresh2 x hx)
      rw [hcong2, find?_id_of_nodup db u0 hmem0 hnd]
      rfl
    rw [hsome]
    show Except.ok (some (g2 u0)) = _
    rw [hg2]
    simp

theorem c2_new_session_invalidates_old_witness :
    ∃ db1 db2,
      create_session [freshUser] "a@x.com" "tk-1" = .ok (some "tk-1", db1) ∧
      create_session db1 "a@x.com" "tk-2" = .ok (some "tk-2", db2) ∧
      get_user_from_session_id db2 "tk-1" = .ok none ∧
      get_user_from_session_id db2 "tk-2"
        = .ok (some { freshUser with session_id := some "tk-2" }) :=
  c2_new_session_invalidates_old [freshUser] "a@x.com" "tk-1" "tk-2" freshUser
    rfl (by decide) (by decide) (by decide) (by decide) (by decide) (by decide)

/-- C1 as literally stated fails on the code: a non-empty reset token that
matches no record, combined with an empty new password, makes
`update_password` return silently (a no-op) instead of failing with
`ValueError` — the empty-argument guard runs before the token lookup. -/
theorem c1_reset_token_single_use_counterexample :
    ("tok-1" : String) ≠ "" ∧
    (∀ u ∈ ([] : List User), u.reset_token ≠ some "tok-1") ∧
    update_password [] "tok-1" "" 0 = .ok [] ∧
    update_password [] "tok-1" "" 0 ≠ .error .valueError :=
  ⟨by decide, by simp, rfl, by
    intro h
    have h2 : (Except.ok ([] : List User) : Except Err (List User))
        = .error .valueError := h
    exact Except.noConfusion h2⟩
